import Mathlib

/-!
Verification of the HTTP downloader core of this repository
(`gallery_dl/downloader/http.py`).

The Python code is shallowly embedded as executable Lean definitions:

* `SIGNATURE_CHECKS`, `MIME_TYPES` — the two static tables at the bottom of
  the file, with Python byte-string slicing modelled by `pySlice` over
  `List Nat` (one `Nat` per byte).
* `adjust_extension` — `HttpDownloader._adjust_extension`.
* `find_extension` — `HttpDownloader._find_extension`; the call to the
  external `mimetypes.guess_extension` library is passed in as a function
  argument `guess` (it returns the extension with its leading dot, as the
  library does; the code strips the dot).
* `checkSizeBudget` — the min/max file-size check (lines 177-189).
* `attempt` / `openReceive` — the body of one iteration of the
  `while True` loop of `_download_impl` (everything from `tries += 1`
  down to `break`), returning a `StepResult`.
* `downloadLoop` — the loop shell: warning emission, retry cutoff,
  linear-backoff sleep, and dispatch on the `StepResult`.  Since the
  Python loop need not terminate, the embedding is fuel-indexed and
  returns `none` when the fuel runs out.
* `receive_rate` — `HttpDownloader._receive_rate`, with wall-clock
  readings (`time.time()`) supplied as an input per chunk and rational
  arithmetic in place of floating point.

Abstraction boundary: the caller-provided collaborators (transport
session, validation hook, path-existence checks, `mimetypes` fallback)
are fields of `Env`; configuration values read in `__init__` are fields
of `Config`.  The destination (`pathfmt`) is modelled by `PathFmt`:
its mutable extension slot and the byte content of its partial file
(`part` mode enabled, as in the repository's own tests).  Log calls and
sleeps become `Event`s so that theorems can speak about warnings and
backoff.  The `_mtime` bookkeeping of lines 262-267 and the
`kwdict`/metadata dictionary contents are not observed by any claim and
are not modelled beyond the path-exists short-circuit of the metadata
branch.
-/

/-- A byte string: one `Nat` (0..255) per byte. -/
abbrev Bytes := List Nat

/-- Python slice `s[a:b]` (for `a ≤ b`): drop `a` bytes, take `b - a`.
Out-of-range indices clamp, exactly as in Python. -/
def pySlice (s : Bytes) (a b : Nat) : Bytes := (s.drop a).take (b - a)

/-- The ordered signature table `SIGNATURE_CHECKS` (http.py lines 399-424):
extension tag to predicate over the leading bytes of the payload.
Dict iteration order in Python is insertion order, kept here as list order. -/
def SIGNATURE_CHECKS : List (String × (Bytes → Bool)) := [
  ("jpg" , fun s => pySlice s 0 3 == [0xFF, 0xD8, 0xFF]),
  ("png" , fun s => pySlice s 0 8 == [0x89, 0x50, 0x4E, 0x47, 0x0D, 0x0A, 0x1A, 0x0A]),
  ("gif" , fun s => [[0x47, 0x49, 0x46, 0x38, 0x37, 0x61],
                     [0x47, 0x49, 0x46, 0x38, 0x39, 0x61]].contains (pySlice s 0 6)),
  ("bmp" , fun s => pySlice s 0 2 == [0x42, 0x4D]),
  ("webp", fun s => pySlice s 0 4 == [0x52, 0x49, 0x46, 0x46] &&
                    pySlice s 8 12 == [0x57, 0x45, 0x42, 0x50]),
  ("avif", fun s => pySlice s 4 12 == [0x66, 0x74, 0x79, 0x70, 0x61, 0x76, 0x69, 0x66]),
  ("svg" , fun s => pySlice s 0 5 == [0x3C, 0x3F, 0x78, 0x6D, 0x6C]),
  ("ico" , fun s => pySlice s 0 4 == [0x00, 0x00, 0x01, 0x00]),
  ("cur" , fun s => pySlice s 0 4 == [0x00, 0x00, 0x02, 0x00]),
  ("psd" , fun s => pySlice s 0 4 == [0x38, 0x42, 0x50, 0x53]),
  ("webm", fun s => pySlice s 0 4 == [0x1A, 0x45, 0xDF, 0xA3]),
  ("ogg" , fun s => pySlice s 0 4 == [0x4F, 0x67, 0x67, 0x53]),
  ("wav" , fun s => pySlice s 0 4 == [0x52, 0x49, 0x46, 0x46] &&
                    pySlice s 8 12 == [0x57, 0x41, 0x56, 0x45]),
  ("mp3" , fun s => pySlice s 0 3 == [0x49, 0x44, 0x33] ||
                    [[0xFF, 0xFB], [0xFF, 0xF3], [0xFF, 0xF2]].contains (pySlice s 0 2)),
  ("zip" , fun s => [[0x50, 0x4B, 0x03, 0x04], [0x50, 0x4B, 0x05, 0x06],
                     [0x50, 0x4B, 0x07, 0x08]].contains (pySlice s 0 4)),
  ("rar" , fun s => pySlice s 0 6 == [0x52, 0x61, 0x72, 0x21, 0x1A, 0x07]),
  ("7z"  , fun s => pySlice s 0 6 == [0x37, 0x7A, 0xBC, 0xAF, 0x27, 0x1C]),
  ("pdf" , fun s => pySlice s 0 5 == [0x25, 0x50, 0x44, 0x46, 0x2D]),
  ("swf" , fun s => [[0x43, 0x57, 0x53],
                     [0x46, 0x57, 0x53]].contains (pySlice s 0 3)),
  ("bin" , fun _ => false)]

/-- `matchSignature tag header`: apply the signature predicate registered for
`tag` (`SIGNATURE_CHECKS[tag](header)`).  An unknown tag yields `false`
(in Python the lookup would raise; every call site guards membership first). -/
def matchSignature (tag : String) (hdr : Bytes) : Bool :=
  match SIGNATURE_CHECKS.lookup tag with
  | some check => check hdr
  | none => false

/-- Python truthiness of `pathfmt.extension in SIGNATURE_CHECKS` where the
extension slot may be empty (`None`/`""`, modelled as `none`). -/
def extInSig : Option String → Bool
  | some e => (SIGNATURE_CHECKS.lookup e).isSome
  | none => false

/-- The destination (`pathfmt`): the mutable extension slot and the byte
content of its partial file (`[]` when absent or empty; `part_size()` is
the length). -/
structure PathFmt where
  extension : Option String
  partContent : Bytes
  deriving Repr, DecidableEq

/-- `HttpDownloader._adjust_extension` (lines 342-350): if the predicate of
the current extension rejects the header bytes, scan the table in order and
switch to the first tag whose predicate accepts, returning `true`; otherwise
leave the extension unchanged and return `false`.  Call sites guard that the
current extension is a key of the table (the `none` lookup branch is
unreachable there; in Python it would raise `KeyError`). -/
def adjust_extension (pf : PathFmt) (file_header : Bytes) : PathFmt × Bool :=
  match SIGNATURE_CHECKS.lookup (pf.extension.getD "") with
  | some check =>
    if check file_header then (pf, false)
    else
      match SIGNATURE_CHECKS.find? (fun p => p.2 file_header) with
      | some (ext, _) => ({ pf with extension := some ext }, true)
      | none => (pf, false)
  | none => (pf, false)

/-- `MIME_TYPES` (lines 353-396): MIME string to extension tag. -/
def MIME_TYPES : List (String × String) := [
  ("image/jpeg"    , "jpg"),
  ("image/jpg"     , "jpg"),
  ("image/png"     , "png"),
  ("image/gif"     , "gif"),
  ("image/bmp"     , "bmp"),
  ("image/x-bmp"   , "bmp"),
  ("image/x-ms-bmp", "bmp"),
  ("image/webp"    , "webp"),
  ("image/avif"    , "avif"),
  ("image/svg+xml" , "svg"),
  ("image/ico"     , "ico"),
  ("image/icon"    , "ico"),
  ("image/x-icon"  , "ico"),
  ("image/vnd.microsoft.icon" , "ico"),
  ("image/x-photoshop"        , "psd"),
  ("application/x-photoshop"  , "psd"),
  ("image/vnd.adobe.photoshop", "psd"),
  ("video/webm", "webm"),
  ("video/ogg" , "ogg"),
  ("video/mp4" , "mp4"),
  ("audio/wav"  , "wav"),
  ("audio/x-wav", "wav"),
  ("audio/webm" , "webm"),
  ("audio/ogg"  , "ogg"),
  ("audio/mpeg" , "mp3"),
  ("application/zip"  , "zip"),
  ("application/x-zip", "zip"),
  ("application/x-zip-compressed", "zip"),
  ("application/rar"  , "rar"),
  ("application/x-rar", "rar"),
  ("application/x-rar-compressed", "rar"),
  ("application/x-7z-compressed" , "7z"),
  ("application/pdf"  , "pdf"),
  ("application/x-pdf", "pdf"),
  ("application/x-shockwave-flash", "swf"),
  ("application/ogg", "ogg"),
  ("application/octet-stream", "bin")]

/-- `HttpDownloader._find_extension` (lines 324-340).  Returns the chosen
extension together with the text of the unknown-MIME warning when one is
logged.  `guess` stands for the external `mimetypes.guess_extension`
facility; as that library does, it returns the extension with a leading
dot, which the code strips (`ext[1:]`). -/
def find_extension (guess : String → Option String) (contentType : Option String) :
    String × Option String :=
  let mtype := contentType.getD "image/jpeg"
  -- mtype.partition(";")[0] — keep everything before the first semicolon
  let mtype := (mtype.data.takeWhile (fun c => c != ';')).asString
  -- if "/" not in mtype: mtype = "image/" + mtype
  let mtype := if mtype.data.contains '/' then mtype else "image/" ++ mtype
  match MIME_TYPES.lookup mtype with
  | some e => (e, none)
  | none =>
    match guess mtype with
    | some ext => ((ext.data.drop 1).asString, none)
    | none => ("bin", some ("Unknown MIME type " ++ mtype))

/-- `self.minsize and size < self.minsize` — the configured minimum rejects
the declared size (a configured value of `0` is falsy in Python and
disables the bound). -/
def sizeBelowMin (minsize : Option Nat) (s : Nat) : Bool :=
  match minsize with
  | some m => m != 0 && decide (s < m)
  | none => false

/-- `self.maxsize and size > self.maxsize` — the configured maximum rejects
the declared size (a configured value of `0` is falsy and disables
the bound). -/
def sizeAboveMax (maxsize : Option Nat) (s : Nat) : Bool :=
  match maxsize with
  | some m => m != 0 && decide (m < s)
  | none => false

/-- The file-size budget check of lines 177-189: `none` lets the download
proceed, `some w` aborts it fatally with warning text `w`.  The declared
size is the result of `text.parse_int(size, None)`: `none` when the header
was absent or unparsable. -/
def checkSizeBudget (minsize maxsize : Option Nat) (size : Option Nat) : Option String :=
  match size with
  | none => none
  | some s =>
    if sizeBelowMin minsize s then
      some ("File size smaller than allowed minimum (" ++ toString s ++ " < "
            ++ toString (minsize.getD 0) ++ ")")
    else if sizeAboveMax maxsize s then
      some ("File size larger than allowed maximum (" ++ toString s ++ " > "
            ++ toString (maxsize.getD 0) ++ ")")
    else none

/-- Observable actions of one `download` call. -/
inductive Event where
  /-- `self.log.warning("%s (%s/%s)", msg, tries, self.retries+1)` at the top
  of the loop: the failure reason, the attempt counter, and the displayed
  total `retries+1` (`none` when the budget is infinite). -/
  | retryWarn (msg : String) (attempt : Nat) (budgetDisplay : Option Nat)
  /-- `time.sleep(tries)` — the linear-backoff sleep, in seconds. -/
  | sleep (seconds : Nat)
  /-- Any other `self.log.warning(...)`. -/
  | logWarn (msg : String)
  /-- `self.log.debug(...)`. -/
  | logDebug (msg : String)
  /-- `self.out.start(pathfmt.path)` right before the body copy. -/
  | outStart
  deriving Repr, DecidableEq

/-- Result of the caller-supplied validation hook `_http_validate`:
a replacement URL string, a truthy accept, or a falsy reject. -/
inductive VRes where
  | redirect (url : String)
  | accept
  | reject
  deriving Repr, DecidableEq

/-- One response as seen by `_download_impl`: status, reason phrase, the
declared size after `text.parse_int` (`Content-Length` for 200, the
`Content-Range` total for 206), the `Content-Type` header, and the body
stream.  The body arrives as a list of chunks (`iter_content`); when
`streamError` is set, the stream raises that error after delivering
`chunks` (a mid-stream failure is the same response with the undelivered
chunks dropped).  The peek of line 212-214 consumes the first chunk
(the 16-byte `iter_content(16)` read of a non-chunked transport is the
special case of a chunking whose first chunk holds 16 bytes). -/
structure Response where
  code : Nat
  reason : String
  declaredSize : Option Nat
  contentType : Option String
  chunks : List Bytes
  streamError : Option String

/-- Outcome of issuing one request through the transport session. -/
inductive IssueResult where
  /-- `requests.exceptions.ConnectionError` / `Timeout` — retryable. -/
  | connError (msg : String)
  /-- any other exception during issuance — fatal. -/
  | fatalError (msg : String)
  | response (r : Response)

/-- The external collaborators of one `download` call.  The transport and
the validation hook receive the index of the request being issued (the
hook is arbitrary caller code and may be stateful; the response object it
receives is determined by that index). -/
structure Env where
  transport : Nat → String → Nat → IssueResult
  validate : Option (Nat → VRes)
  /-- `pathfmt.exists()` as a function of the current extension slot
  (setting the extension rebuilds the path). -/
  existsAt : Option String → Bool
  /-- `pathfmt.exists()` after the metadata branch rebuilt the path. -/
  metaExists : Bool
  /-- the external `mimetypes.guess_extension` facility. -/
  guessExtension : String → Option String

/-- The configuration read in `__init__` (only the fields the claims
exercise; rate/progress are `None` here so `self.receive` is the plain
static `receive` — `_receive_rate` is modelled separately below). -/
structure Config where
  /-- `self.retries`; `none` models the infinite budget (`float("inf")`). -/
  retries : Option Nat
  minsize : Option Nat
  maxsize : Option Nat
  adjustExtension : Bool
  metadata : Bool

/-- `"'{} {}' for '{}'".format(code, response.reason, url)` (line 159),
with the quote characters left out of the model. -/
def statusMsg (code : Nat) (reason url : String) : String :=
  toString code ++ " " ++ reason ++ " for " ++ url

/-- `"file size mismatch ({} < {})".format(fp.tell(), size)` (line 255). -/
def sizeMismatchMsg (tell s : Nat) : String :=
  "file size mismatch (" ++ toString tell ++ " < " ++ toString s ++ ")"

/-- Write `data` into `content` at byte position `pos`, overwriting in
place and extending at the end — a file handle write after `seek(pos)`. -/
def writeAt (content : Bytes) (pos : Nat) (data : Bytes) : Bytes :=
  content.take pos ++ data ++ content.drop (pos + data.length)

/-- The plain static `receive` (lines 270-274): write every chunk in
arrival order.  Returns the final file content and position. -/
def receiveChunks : Bytes → Nat → List Bytes → Bytes × Nat
  | content, pos, [] => (content, pos)
  | content, pos, data :: rest =>
    receiveChunks (writeAt content pos data) (pos + data.length) rest

/-- `next(content, b"")` with a stream that may raise: the first chunk and
the remaining stream, or the raised error message, or `b""` on a cleanly
exhausted stream. -/
def peekStream (chunks : List Bytes) (streamError : Option String) :
    Except String (Bytes × List Bytes) :=
  match chunks with
  | c :: rest => .ok (c, rest)
  | [] =>
    match streamError with
    | some m => .error m
    | none => .ok ([], [])

/-- How one loop iteration of `_download_impl` ends. -/
inductive StepResult where
  /-- a retryable condition: `msg = ...; continue`. -/
  | retry (msg : String) (pf : PathFmt) (events : List Event)
  /-- `return False` from inside the attempt. -/
  | fatalStep (pf : PathFmt) (events : List Event)
  /-- `return True` or `break`. -/
  | successStep (pf : PathFmt) (events : List Event)
  /-- the validation hook returned a replacement URL:
  `url = result; tries -= 1; continue`. -/
  | redirectStep (url : String) (pf : PathFmt) (events : List Event)
  deriving Repr

/-- Lines 224-260 of `_download_impl`: choose the open mode, write the
peeked header chunk or re-check the on-disk header and seek, stream the
body, and run the post-copy size check.  `offset` and `file_size` are the
local variables of the same names; `file_header` is `[]` when absent or
empty (both falsy in Python). -/
def openReceive (cfg : Config) (pf : PathFmt) (offset file_size : Nat)
    (file_header : Bytes) (chunks : List Bytes) (streamError : Option String)
    (size : Option Nat) (ev : List Event) : StepResult :=
  let debugEv :=
    if offset == 0 then
      if file_size != 0 then [Event.logDebug "Unable to resume partial download"] else []
    else [Event.logDebug ("Resuming download at byte " ++ toString offset)]
  -- "w+b" truncates; "r+b" opens the existing partial file
  let fileInit := if offset == 0 then [] else pf.partContent
  let (pf1, content0, pos0) :=
    if file_header != [] then
      (pf, writeAt fileInit 0 file_header, file_header.length)
    else if offset != 0 then
      let pf' :=
        if cfg.adjustExtension && extInSig pf.extension then
          (adjust_extension pf (fileInit.take 16)).1
        else pf
      (pf', fileInit, offset)
    else (pf, fileInit, 0)
  let ev := ev ++ debugEv ++ [Event.outStart]
  let rcv := receiveChunks content0 pos0 chunks
  let pfDone : PathFmt := { pf1 with partContent := rcv.1 }
  match streamError with
  | some m => .retry m pfDone ev
  | none =>
    match size with
    | some s =>
      if s != 0 && decide (rcv.2 < s) then .retry (sizeMismatchMsg rcv.2 s) pfDone ev
      else .successStep pfDone ev
    | none => .successStep pfDone ev

/-- One loop iteration of `_download_impl` from `tries += 1` (line 113)
down to `break` (line 260): issue the request, classify the status code,
run the validation hook, the size budget, the MIME extension and metadata
short-circuits, the header peek and extension adjustment, then hand off
to `openReceive`. -/
def attempt (cfg : Config) (env : Env) (url : String) (pf0 : PathFmt)
    (reqIdx : Nat) : StepResult :=
  let file_size := pf0.partContent.length
  match env.transport reqIdx url file_size with
  | .connError m => .retry m pf0 []
  | .fatalError m => .fatalStep pf0 [.logWarn m]
  | .response r =>
    if r.code == 200 || r.code == 206 then
      -- 200: full content, offset 0, size from Content-Length;
      -- 206: partial content, offset stays, size from Content-Range total
      let offset := if r.code == 200 then 0 else file_size
      let size := r.declaredSize
      match (match env.validate with | some v => v reqIdx | none => .accept) with
      | VRes.redirect u => .redirectStep u pf0 []
      | VRes.reject => .fatalStep pf0 [.logWarn "Invalid response"]
      | VRes.accept =>
        match checkSizeBudget cfg.minsize cfg.maxsize size with
        | some w => .fatalStep pf0 [.logWarn w]
        | none =>
          -- set missing filename extension from MIME type
          let mimeStep :=
            if pf0.extension.isNone then
              let fe := find_extension env.guessExtension r.contentType
              ((⟨some fe.1, pf0.partContent⟩ : PathFmt),
               match fe.2 with | some m => [Event.logWarn m] | none => [])
            else (pf0, [])
          let pf1 := mimeStep.1
          let ev1 := mimeStep.2
          if pf0.extension.isNone && env.existsAt pf1.extension then
            .successStep pf1 ev1
          else if cfg.metadata && env.metaExists then
            .successStep pf1 ev1
          else if cfg.adjustExtension && offset == 0 && extInSig pf1.extension then
            match peekStream r.chunks r.streamError with
            | .error m => .retry m pf1 ev1
            | .ok (file_header, rest) =>
              let adj := adjust_extension pf1 file_header
              if adj.2 && env.existsAt adj.1.extension then .successStep adj.1 ev1
              else openReceive cfg adj.1 offset file_size file_header rest
                     r.streamError size ev1
          else openReceive cfg pf1 offset file_size [] r.chunks r.streamError size ev1
    else if r.code == 416 && file_size != 0 then
      -- Requested Range Not Satisfiable on a resume attempt: break
      .successStep pf0 []
    else
      let m := statusMsg r.code r.reason url
      if r.code == 429 || (500 ≤ r.code && r.code < 600) then .retry m pf0 []
      else .fatalStep pf0 [.logWarn m]

/-- `tries > self.retries` with an infinite budget never exceeded. -/
def budgetExceeded (retries : Option Nat) (tries : Nat) : Bool :=
  match retries with
  | some r => decide (r < tries)
  | none => false

/-- The mutable loop variables of `_download_impl`, plus the trace of
events emitted so far and the number of requests issued so far. -/
structure LoopState where
  tries : Nat
  msg : String
  url : String
  pf : PathFmt
  reqIdx : Nat
  events : List Event

/-- Result of a terminating `download` call. -/
structure Outcome where
  success : Bool
  pf : PathFmt
  events : List Event
  requests : Nat
  deriving Repr, DecidableEq

/-- Either the loop returned (an `Outcome`) or it continues with an
updated state. -/
inductive ShellStep where
  | stop (o : Outcome)
  | next (st : LoopState)

/-- One full iteration of the `while True` loop of `_download_impl`
(lines 103-260): on a non-first iteration emit the retry warning, return
`False` when the counter exceeds the budget, otherwise sleep `tries`
seconds; then run one `attempt` and dispatch on how it ended. -/
def loopIter (cfg : Config) (env : Env) (st : LoopState) : ShellStep :=
  let hdr := if st.tries == 0 then []
             else [Event.retryWarn st.msg st.tries (cfg.retries.map (· + 1))]
  if st.tries != 0 && budgetExceeded cfg.retries st.tries then
    .stop ⟨false, st.pf, st.events ++ hdr, st.reqIdx⟩
  else
    let hdr := hdr ++ (if st.tries == 0 then [] else [Event.sleep st.tries])
    let ev0 := st.events ++ hdr
    match attempt cfg env st.url st.pf st.reqIdx with
    | .retry m pf' ev => .next ⟨st.tries + 1, m, st.url, pf', st.reqIdx + 1, ev0 ++ ev⟩
    | .redirectStep u pf' ev =>
      -- tries += 1 at line 113 then tries -= 1 at line 171: net unchanged
      .next ⟨st.tries, st.msg, u, pf', st.reqIdx + 1, ev0 ++ ev⟩
    | .fatalStep pf' ev => .stop ⟨false, pf', ev0 ++ ev, st.reqIdx + 1⟩
    | .successStep pf' ev => .stop ⟨true, pf', ev0 ++ ev, st.reqIdx + 1⟩

/-- The `while True` loop of `_download_impl`, fuel-indexed (`none` = the
fuel ran out before the loop did). -/
def downloadLoop (cfg : Config) (env : Env) : Nat → LoopState → Option Outcome
  | 0, _ => none
  | fuel + 1, st =>
    match loopIter cfg env st with
    | .stop o => some o
    | .next st' => downloadLoop cfg env fuel st'

/-- The initial loop state of `_download_impl` (lines 92-94). -/
def initState (url : String) (pf : PathFmt) : LoopState := ⟨0, "", url, pf, 0, []⟩

/-! ## Canonical magic bytes

One canonical header per signature tag, taken from the repository's own
test data (`test/test_downloader.py`, `DATA`): the shortest byte string the
tests use to exemplify each format (the `0x3F` bytes are the literal `?`
padding the tests use in the RIFF and `ftyp` containers). -/

/-- Canonical header bytes for every signature tag except the deliberately
never-matching `"bin"` sentinel. -/
def canonicalHeaders : List (String × Bytes) := [
  ("jpg" , [0xFF, 0xD8, 0xFF]),
  ("png" , [0x89, 0x50, 0x4E, 0x47, 0x0D, 0x0A, 0x1A, 0x0A]),
  ("gif" , [0x47, 0x49, 0x46, 0x38, 0x37, 0x61]),
  ("bmp" , [0x42, 0x4D]),
  ("webp", [0x52, 0x49, 0x46, 0x46, 0x3F, 0x3F, 0x3F, 0x3F, 0x57, 0x45, 0x42, 0x50]),
  ("avif", [0x3F, 0x3F, 0x3F, 0x3F, 0x66, 0x74, 0x79, 0x70, 0x61, 0x76, 0x69, 0x66]),
  ("svg" , [0x3C, 0x3F, 0x78, 0x6D, 0x6C]),
  ("ico" , [0x00, 0x00, 0x01, 0x00]),
  ("cur" , [0x00, 0x00, 0x02, 0x00]),
  ("psd" , [0x38, 0x42, 0x50, 0x53]),
  ("webm", [0x1A, 0x45, 0xDF, 0xA3]),
  ("ogg" , [0x4F, 0x67, 0x67, 0x53]),
  ("wav" , [0x52, 0x49, 0x46, 0x46, 0x3F, 0x3F, 0x3F, 0x3F, 0x57, 0x41, 0x56, 0x45]),
  ("mp3" , [0x49, 0x44, 0x33]),
  ("zip" , [0x50, 0x4B, 0x03, 0x04]),
  ("rar" , [0x52, 0x61, 0x72, 0x21, 0x1A, 0x07]),
  ("7z"  , [0x37, 0x7A, 0xBC, 0xAF, 0x27, 0x1C]),
  ("pdf" , [0x25, 0x50, 0x44, 0x46, 0x2D]),
  ("swf" , [0x43, 0x57, 0x53])]

/-- C4: every supported signature tag's predicate accepts any header that
begins with that tag's canonical magic bytes; it rejects the canonical
header of every other known tag (here even the RIFF-container formats
`webp`/`wav` reject each other, since both predicates also check the
subtype tag at bytes 8-12, so mutual exclusivity holds without
exception); and the `"bin"` predicate rejects every input. -/
theorem signature_checks_correct :
    (∀ p ∈ canonicalHeaders, ∀ rest : Bytes, matchSignature p.1 (p.2 ++ rest) = true) ∧
    (∀ p ∈ canonicalHeaders, ∀ q ∈ canonicalHeaders, p.1 ≠ q.1 →
      matchSignature p.1 q.2 = false) ∧
    (∀ s : Bytes, matchSignature "bin" s = false) := by
  refine ⟨?_, ?_, ?_⟩
  · intro p hp
    fin_cases hp <;> intro rest <;> rfl
  · decide
  · intro s
    rfl

/-- Witness for `signature_checks_correct` at concrete inputs: the `png`
predicate accepts a PNG magic followed by junk, the `jpg` predicate rejects
the canonical PNG header, and `"bin"` rejects a ZIP header. -/
theorem signature_checks_correct_witness :
    matchSignature "png"
      ([0x89, 0x50, 0x4E, 0x47, 0x0D, 0x0A, 0x1A, 0x0A] ++ [0, 1, 2]) = true ∧
    matchSignature "jpg" [0x89, 0x50, 0x4E, 0x47, 0x0D, 0x0A, 0x1A, 0x0A] = false ∧
    matchSignature "bin" [0x50, 0x4B, 0x03, 0x04] = false := by
  refine ⟨?_, ?_, ?_⟩
  · exact signature_checks_correct.1
      ("png", [0x89, 0x50, 0x4E, 0x47, 0x0D, 0x0A, 0x1A, 0x0A]) (by decide) [0, 1, 2]
  · exact signature_checks_correct.2.1
      ("jpg", [0xFF, 0xD8, 0xFF]) (by decide)
      ("png", [0x89, 0x50, 0x4E, 0x47, 0x0D, 0x0A, 0x1A, 0x0A]) (by decide) (by decide)
  · exact signature_checks_correct.2.2 _

/-- C5: `_adjust_extension` on a destination whose declared extension `e`
is a key of the signature table with predicate `check`: when `check`
rejects the peeked bytes and some predicate accepts them, the extension
becomes the first accepting tag in the table's fixed order
(`List.find?` over the ordered table) and the call returns `true`;
when `check` accepts the bytes, or when no predicate accepts them
(`find?` yields nothing), the extension is unchanged and it
returns `false`. -/
theorem adjust_extension_spec (e : String) (check : Bytes → Bool) (pf : PathFmt)
    (hdr : Bytes) (hext : pf.extension = some e)
    (hlk : SIGNATURE_CHECKS.lookup e = some check) :
    (check hdr = true → adjust_extension pf hdr = (pf, false)) ∧
    (check hdr = false →
      (∀ t p, SIGNATURE_CHECKS.find? (fun q => q.2 hdr) = some (t, p) →
        adjust_extension pf hdr = ({ pf with extension := some t }, true)) ∧
      (SIGNATURE_CHECKS.find? (fun q => q.2 hdr) = none →
        adjust_extension pf hdr = (pf, false))) := by
  unfold adjust_extension
  rw [hext]
  simp only [Option.getD_some, hlk]
  refine ⟨fun hc => by rw [hc]; rfl, fun hc => ⟨fun t p hf => ?_, fun hf => ?_⟩⟩
  · rw [hc, hf]
    rfl
  · rw [hc, hf]
    rfl

/-- Witness for `adjust_extension_spec`: a destination declared `jpg` whose
peeked bytes are the PNG magic is re-tagged to `png` with result `true`. -/
theorem adjust_extension_spec_witness :
    adjust_extension ⟨some "jpg", []⟩ [0x89, 0x50, 0x4E, 0x47, 0x0D, 0x0A, 0x1A, 0x0A] =
      (⟨some "png", []⟩, true) := by
  have h := adjust_extension_spec "jpg" (fun s => pySlice s 0 3 == [0xFF, 0xD8, 0xFF])
    ⟨some "jpg", []⟩ [0x89, 0x50, 0x4E, 0x47, 0x0D, 0x0A, 0x1A, 0x0A] rfl rfl
  exact (h.2 (by decide)).1 "png"
    (fun s => pySlice s 0 8 == [0x89, 0x50, 0x4E, 0x47, 0x0D, 0x0A, 0x1A, 0x0A]) rfl

/-- The plain `receive` appends the concatenation of the chunks when the
file position starts at the end of the current content. -/
theorem receiveChunks_append (cs : List Bytes) : ∀ (c : Bytes),
    receiveChunks c c.length cs = (c ++ cs.flatten, c.length + cs.flatten.length) := by
  induction cs with
  | nil => intro c; simp [receiveChunks]
  | cons d cs ih =>
    intro c
    have hw : writeAt c c.length d = c ++ d := by
      have hd : c.drop (c.length + d.length) = [] :=
        List.drop_eq_nil_of_le (by omega)
      simp [writeAt, hd]
    calc receiveChunks c c.length (d :: cs)
        = receiveChunks (c ++ d) (c.length + d.length) cs := by
          rw [receiveChunks, hw]
      _ = receiveChunks (c ++ d) (c ++ d).length cs := by rw [List.length_append]
      _ = ((c ++ d) ++ cs.flatten, (c ++ d).length + cs.flatten.length) := ih (c ++ d)
      _ = (c ++ (d :: cs).flatten, c.length + ((d :: cs).flatten).length) := by
          simp [List.length_append, List.append_assoc]
          omega

/-- The events the loop shell emits from a loop-top state whose counter is
`t` when every remaining attempt fails retryably with message `m`, until
the cutoff fires `k` iterations later: warning/backoff-sleep pairs for
counters `t, t+1, ...`, ending in the final warning with no sleep. -/
def tailTrace (m : String) (cap : Option Nat) : Nat → Nat → List Event
  | t, 0 => [.retryWarn m t cap]
  | t, k + 1 => .retryWarn m t cap :: .sleep t :: tailTrace m cap (t + 1) k


/-- `tailTrace` in closed form: one warning/sleep pair per backed-off
re-attempt, then the final warning. -/
theorem tailTrace_eq (m : String) (cap : Option Nat) :
    ∀ (k t : Nat), tailTrace m cap t k =
      ((List.range k).map
        (fun i => [Event.retryWarn m (t + i) cap, Event.sleep (t + i)])).flatten ++
      [Event.retryWarn m (t + k) cap] := by
  intro k
  induction k with
  | zero => intro t; simp [tailTrace]
  | succ k ih =>
    intro t
    have hfun : ((fun i => [Event.retryWarn m (t + i) cap, Event.sleep (t + i)]) ∘ Nat.succ)
        = fun i => [Event.retryWarn m (t + 1 + i) cap, Event.sleep (t + 1 + i)] := by
      funext i
      simp only [Function.comp_apply, Nat.succ_eq_add_one]
      have harg : t + (i + 1) = t + 1 + i := by omega
      rw [harg]
    rw [tailTrace, ih (t + 1), List.range_succ_eq_map, List.map_cons, List.map_map, hfun]
    have harg : t + (k + 1) = t + 1 + k := by omega
    rw [harg]
    simp

/-- Unfold one loop iteration that continues. -/
theorem downloadLoop_next (cfg : Config) (env : Env) (fuel : Nat) (st st' : LoopState)
    (h : loopIter cfg env st = .next st') :
    downloadLoop cfg env (fuel + 1) st = downloadLoop cfg env fuel st' := by
  have hd : downloadLoop cfg env (fuel + 1) st =
      (match loopIter cfg env st with
       | .stop o => some o
       | .next st2 => downloadLoop cfg env fuel st2) := rfl
  rw [hd, h]

/-- Unfold one loop iteration that returns. -/
theorem downloadLoop_stop (cfg : Config) (env : Env) (fuel : Nat) (st : LoopState)
    (o : Outcome) (h : loopIter cfg env st = .stop o) :
    downloadLoop cfg env (fuel + 1) st = some o := by
  have hd : downloadLoop cfg env (fuel + 1) st =
      (match loopIter cfg env st with
       | .stop o => some o
       | .next st2 => downloadLoop cfg env fuel st2) := rfl
  rw [hd, h]

/-- Loop-shell induction: if every attempt at `url` fails retryably with
message `m` and leaves the destination untouched, then from a loop-top
state with counter `t` (so `t` attempts already failed) the loop runs the
remaining attempts and returns `False` when the counter exceeds `R`,
emitting exactly the `tailTrace` events and issuing one request per
remaining attempt. -/
theorem loop_retry_run (cfg : Config) (env : Env) (R : Nat) (hR : cfg.retries = some R)
    (url m : String) (h : ∀ i pf, attempt cfg env url pf i = .retry m pf []) :
    ∀ (k t : Nat), t + k = R + 1 → 1 ≤ t → ∀ (pf : PathFmt) (q : Nat) (E : List Event),
      downloadLoop cfg env (k + 1) ⟨t, m, url, pf, q, E⟩ =
        some ⟨false, pf, E ++ tailTrace m (some (R + 1)) t k, q + k⟩ := by
  intro k
  induction k with
  | zero =>
    intro t ht h1 pf q E
    have hmax : t = R + 1 := by omega
    subst hmax
    have hstep : loopIter cfg env ⟨R + 1, m, url, pf, q, E⟩ =
        .stop ⟨false, pf, E ++ [Event.retryWarn m (R + 1) (some (R + 1))], q⟩ := by
      unfold loopIter
      simp [hR, budgetExceeded]
    rw [downloadLoop_stop cfg env 0 _ _ hstep]
    simp [tailTrace]
  | succ k ih =>
    intro t ht h1 pf q E
    have hne2 : (t == 0) = false := by simp; omega
    have hbud : budgetExceeded (some R) t = false := by
      simp only [budgetExceeded, decide_eq_false_iff_not]
      omega
    have hstep : loopIter cfg env ⟨t, m, url, pf, q, E⟩ =
        .next ⟨t + 1, m, url, pf, q + 1,
          E ++ [Event.retryWarn m t (some (R + 1)), Event.sleep t]⟩ := by
      unfold loopIter
      simp [hne2, hbud, h, hR]
    rw [downloadLoop_next cfg env (k + 1) _ _ hstep,
      ih (t + 1) (by omega) (by omega) pf (q + 1) _]
    simp [tailTrace, List.append_assoc]
    omega

/-- With an infinite budget (`retries = none`) an attempt that fails
retryably always continues the loop. -/
theorem loopIter_retry_inf (cfg : Config) (env : Env) (st : LoopState) (m : String)
    (hR : cfg.retries = none)
    (hatt : attempt cfg env st.url st.pf st.reqIdx = .retry m st.pf []) :
    ∃ E, loopIter cfg env st =
      .next ⟨st.tries + 1, m, st.url, st.pf, st.reqIdx + 1, E⟩ := by
  unfold loopIter
  rw [hR, hatt]
  simp [budgetExceeded]

/-- An infinite retry budget disables the cutoff: when every attempt fails
retryably, the loop never returns, whatever the fuel. -/
theorem loop_retry_infinite (cfg : Config) (env : Env) (hR : cfg.retries = none)
    (url m : String) (h : ∀ i pf, attempt cfg env url pf i = .retry m pf []) :
    ∀ (fuel t : Nat) (m0 : String) (pf : PathFmt) (q : Nat) (E : List Event),
      downloadLoop cfg env fuel ⟨t, m0, url, pf, q, E⟩ = none := by
  intro fuel
  induction fuel with
  | zero => intros; rfl
  | succ fuel ih =>
    intro t m0 pf q E
    obtain ⟨E', hE'⟩ := loopIter_retry_inf cfg env ⟨t, m0, url, pf, q, E⟩ m hR (h q pf)
    rw [downloadLoop_next cfg env fuel _ _ hE']
    exact ih (t + 1) m pf (q + 1) E'

/-- The full event trace of a `download` call all of whose `R + 1` attempts
fail retryably with reason `m` under a finite budget of `R` retries:
after failed attempt `k` the warning carries `(k, R + 1)`; a backoff sleep
of `k` seconds precedes re-attempt `k + 1` for `k = 1, ..., R`; the final
warning is followed by no sleep. -/
def fullRetryTrace (m : String) (R : Nat) : List Event :=
  ((List.range R).map (fun i =>
    [Event.retryWarn m (1 + i) (some (R + 1)), Event.sleep (1 + i)])).flatten ++
  [Event.retryWarn m (1 + R) (some (R + 1))]

/-- A fresh `download` call all of whose attempts fail retryably with
reason `m` under a finite budget of `R` retries issues exactly `R + 1`
requests, emits `fullRetryTrace m R`, and returns `False`. -/
theorem loop_retry_all (cfg : Config) (env : Env) (R : Nat) (hR : cfg.retries = some R)
    (url m : String) (h : ∀ i pf, attempt cfg env url pf i = .retry m pf [])
    (pf : PathFmt) :
    downloadLoop cfg env (R + 2) (initState url pf) =
      some ⟨false, pf, fullRetryTrace m R, R + 1⟩ := by
  have hstep : loopIter cfg env (initState url pf) = .next ⟨1, m, url, pf, 1, []⟩ := by
    unfold loopIter initState
    rw [show attempt cfg env url pf 0 = .retry m pf [] from h 0 pf]
    rfl
  calc downloadLoop cfg env (R + 2) (initState url pf)
      = downloadLoop cfg env (R + 1) ⟨1, m, url, pf, 1, []⟩ :=
        downloadLoop_next cfg env (R + 1) _ _ hstep
    _ = some ⟨false, pf, [] ++ tailTrace m (some (R + 1)) 1 R, 1 + R⟩ :=
        loop_retry_run cfg env R hR url m h R 1 (by omega) (by omega) pf 1 []
    _ = some ⟨false, pf, fullRetryTrace m R, R + 1⟩ := by
        rw [tailTrace_eq]
        simp [fullRetryTrace]
        omega

/-- The URL all scenario environments below download from. -/
def url0 : String := "http://127.0.0.1:8088/image.bin"

/-- A server that answers 503 Service Unavailable to every request. -/
def resp503 : Response := ⟨503, "Service Unavailable", none, none, [], none⟩

/-- Environment whose transport always returns `resp503`; no validation
hook, no pre-existing files. -/
def env503 : Env :=
  ⟨fun _ _ _ => .response resp503, none, fun _ => false, false, fun _ => none⟩

/-- A configuration with the given retry budget and no other policies. -/
def cfgRetry (retries : Option Nat) : Config := ⟨retries, none, none, true, false⟩

/-- The retry reason recorded for a 503 answer (line 159). -/
def msg503 : String := statusMsg 503 "Service Unavailable" url0

/-- Every attempt against the always-503 server fails retryably with
reason `msg503` and touches nothing. -/
theorem attempt_503 (r : Option Nat) (pf : PathFmt) (i : Nat) :
    attempt (cfgRetry r) env503 url0 pf i = .retry msg503 pf [] := rfl

/-- C2: against a server that always answers 503, a finite retry budget
`R` makes `download` issue exactly `R + 1` requests and return `False`,
emitting after each failed attempt `k` the warning with the reason and the
pair `(k, R + 1)` (the Python rendering is
`"%s (%s/%s)" % (msg, tries, retries + 1)`), and sleeping `k` seconds
(linear backoff `1, 2, ..., R`) before each re-attempt — the events are
exactly `fullRetryTrace msg503 R`.  An infinite budget (`retries = none`)
disables the cutoff: the loop never returns, whatever the fuel. -/
theorem retry_budget_always_503 :
    (∀ (R : Nat) (pf : PathFmt),
      downloadLoop (cfgRetry (some R)) env503 (R + 2) (initState url0 pf) =
        some ⟨false, pf, fullRetryTrace msg503 R, R + 1⟩) ∧
    (∀ (fuel : Nat) (pf : PathFmt),
      downloadLoop (cfgRetry none) env503 fuel (initState url0 pf) = none) :=
  ⟨fun R pf => loop_retry_all (cfgRetry (some R)) env503 R rfl url0 msg503
      (fun i pf => attempt_503 (some R) pf i) pf,
   fun fuel pf => loop_retry_infinite (cfgRetry none) env503 rfl url0 msg503
      (fun i pf => attempt_503 none pf i) fuel 0 "" pf 0 []⟩

/-- Environment whose transport always raises a connection/timeout error
with message `m`. -/
def envConn (m : String) : Env :=
  ⟨fun _ _ _ => .connError m, none, fun _ => false, false, fun _ => none⟩

/-- Environment whose transport always raises an unexpected (non
connection/timeout) exception with message `m`. -/
def envFatal (m : String) : Env :=
  ⟨fun _ _ _ => .fatalError m, none, fun _ => false, false, fun _ => none⟩

/-- A connection/timeout failure during issuance is a retryable attempt
recording the error message. -/
theorem attempt_conn (r : Option Nat) (m : String) (pf : PathFmt) (i : Nat) :
    attempt (cfgRetry r) (envConn m) url0 pf i = .retry m pf [] := rfl

/-- C8: a connection/timeout error during request issuance is retryable —
with budget `R` the loop re-attempts with the recorded message until the
budget is exhausted (`R + 1` requests, warnings carrying the connection
error message, then `False`); any other exception during issuance is
fatal — it is logged and `download` returns `False` immediately after the
single request, with no retry.  Both outcomes are returned values of the
total model, never exceptions escaping `download`. -/
theorem issuance_error_handling :
    (∀ (m : String) (R : Nat) (pf : PathFmt),
      downloadLoop (cfgRetry (some R)) (envConn m) (R + 2) (initState url0 pf) =
        some ⟨false, pf, fullRetryTrace m R, R + 1⟩) ∧
    (∀ (m : String) (r : Option Nat) (fuel : Nat) (pf : PathFmt),
      downloadLoop (cfgRetry r) (envFatal m) (fuel + 1) (initState url0 pf) =
        some ⟨false, pf, [Event.logWarn m], 1⟩) := by
  constructor
  · intro m R pf
    exact loop_retry_all (cfgRetry (some R)) (envConn m) R rfl url0 m
      (fun i pf => attempt_conn (some R) m pf i) pf
  · intro m r fuel pf
    exact downloadLoop_stop (cfgRetry r) (envFatal m) fuel _ _ rfl

/-- A fresh-body `openReceive` (offset 0, empty destination, no stream
error) writes the peeked header chunk (if any) followed by every remaining
chunk, passes the post-copy size check when the declared size equals the
byte count written, and succeeds with the concatenated body on disk. -/
theorem openReceive_zero (cfg : Config) (pf : PathFmt) (fh : Bytes)
    (chunks : List Bytes) (s : Nat) (hs : fh.length + chunks.flatten.length = s)
    (ev : List Event) :
    openReceive cfg pf 0 0 fh chunks none (some s) ev =
      .successStep ⟨pf.extension, fh ++ chunks.flatten⟩ (ev ++ [Event.outStart]) := by
  have hw : writeAt [] 0 fh = fh := by simp [writeAt]
  have hrcv : receiveChunks (writeAt [] 0 fh) fh.length chunks =
      (fh ++ chunks.flatten, fh.length + chunks.flatten.length) := by
    rw [hw]
    exact receiveChunks_append chunks fh
  cases fh with
  | nil =>
    have hrcv0 : receiveChunks [] 0 chunks =
        (chunks.flatten, chunks.flatten.length) := by
      simpa using receiveChunks_append chunks []
    unfold openReceive
    simp only [beq_self_eq_true, if_true, bne_self_eq_false, Bool.false_eq_true,
      if_false, List.length_nil, hrcv0]
    simp [← hs]
  | cons b bs =>
    unfold openReceive
    simp only [beq_self_eq_true, if_true, bne_self_eq_false, Bool.false_eq_true,
      if_false]
    have hne : ((b :: bs : Bytes) != []) = true := rfl
    rw [hne]
    simp only [if_true, hrcv]
    simp [← hs]

/-- A resuming `openReceive` (offset = current partial size > 0, no peeked
header, no stream error) re-opens the partial file, seeks to its end,
appends every chunk, and succeeds with the partial content extended by the
body — whatever the 16-byte extension re-check decided. -/
theorem openReceive_resume (cfg : Config) (pf : PathFmt) (chunks : List Bytes)
    (s : Nat) (hoff : pf.partContent.length ≠ 0)
    (hs : pf.partContent.length + chunks.flatten.length = s) (ev : List Event) :
    ∃ pf2 : PathFmt,
      openReceive cfg pf pf.partContent.length pf.partContent.length []
          chunks none (some s) ev =
        .successStep pf2
          (ev ++ [Event.logDebug ("Resuming download at byte " ++
                    toString pf.partContent.length)] ++ [Event.outStart]) ∧
      pf2.partContent = pf.partContent ++ chunks.flatten := by
  have hz : (pf.partContent.length == 0) = false := by
    simp [hoff]
  have hz2 : (pf.partContent.length != 0) = true := by
    simp [hoff]
  have hchk : ((s != 0) &&
      decide (pf.partContent.length + chunks.flatten.length < s)) = false := by
    rw [hs]
    simp
  unfold openReceive
  rw [hz]
  simp only [Bool.false_eq_true, if_false, bne_self_eq_false, hz2, if_true,
    receiveChunks_append, hchk]
  exact ⟨_, rfl, rfl⟩

/-- A range-honoring transport serving resource `D`: a request without a
`Range` header (partial size 0) gets `200 OK` with the full body and
`Content-Length`; a request with `Range: bytes=f-` gets `206 Partial
Content` with the suffix from byte `f` and the total from
`Content-Range`.  `chunk` is the transport's chunking of a body
(`iter_content`); any chunking whose concatenation is the body is
admissible (the repository's own test server behaves this way). -/
def rangeEnv (D : Bytes) (chunk : Bytes → List Bytes) : Env :=
  ⟨fun _ _ fs =>
    if fs = 0 then .response ⟨200, "OK", some D.length, none, chunk D, none⟩
    else .response ⟨206, "Partial Content", some D.length, none, chunk (D.drop fs), none⟩,
   none, fun _ => false, false, fun _ => none⟩

/-- Configuration for the resume scenarios: finite retries, no size
bounds, no metadata, extension adjustment as given. -/
def cfgResume (adj : Bool) : Config := ⟨some 4, none, none, adj, false⟩

/-- `checkSizeBudget` passes every size when no bound is configured. -/
theorem checkSizeBudget_none_none (size : Option Nat) :
    checkSizeBudget none none size = none := by
  cases size <;> simp [checkSizeBudget, sizeBelowMin, sizeAboveMax]

/-- Reduction of one attempt on an empty destination with a declared
extension, a `200 OK` response, no validation hook, no size bounds and no
metadata, when the extension-adjustment peek is off (either disabled or
the extension has no known signature): the attempt is exactly the
open-and-copy step on the whole body. -/
theorem attempt_200_noPeek (cfg : Config) (env : Env) (url e : String)
    (r : Response) (i : Nat)
    (htr : env.transport i url 0 = .response r) (hcode : r.code = 200)
    (hval : env.validate = none) (hmin : cfg.minsize = none)
    (hmax : cfg.maxsize = none) (hmeta : cfg.metadata = false)
    (hguard : (cfg.adjustExtension && extInSig (some e)) = false) :
    attempt cfg env url ⟨some e, []⟩ i =
      openReceive cfg ⟨some e, []⟩ 0 0 [] r.chunks r.streamError r.declaredSize [] := by
  unfold attempt
  simp only [List.length_nil, htr, hcode, hval, hmin, hmax, hmeta,
    checkSizeBudget_none_none, Option.isNone_some, Bool.false_and, Bool.and_true,
    Bool.false_eq_true, if_false, beq_self_eq_true, Bool.or_self, if_true, hguard]
  simp

/-- As `attempt_200_noPeek`, but with the peek on and a first chunk `c`
available: the peeked chunk runs the extension adjustment (no pre-existing
file can short-circuit) and is handed to the open-and-copy step as the
file header, with the remaining chunks as the body. -/
theorem attempt_200_peek_cons (cfg : Config) (env : Env) (url e : String)
    (r : Response) (i : Nat) (c : Bytes) (rest : List Bytes)
    (htr : env.transport i url 0 = .response r) (hcode : r.code = 200)
    (hval : env.validate = none) (hmin : cfg.minsize = none)
    (hmax : cfg.maxsize = none) (hmeta : cfg.metadata = false)
    (hguard : (cfg.adjustExtension && extInSig (some e)) = true)
    (hchunks : r.chunks = c :: rest)
    (hnoexists : ∀ o, env.existsAt o = false) :
    attempt cfg env url ⟨some e, []⟩ i =
      openReceive cfg (adjust_extension ⟨some e, []⟩ c).1 0 0 c rest
        r.streamError r.declaredSize [] := by
  unfold attempt
  simp only [List.length_nil, htr, hcode, hval, hmin, hmax, hmeta,
    checkSizeBudget_none_none, Option.isNone_some, Bool.false_and, Bool.and_true,
    Bool.false_eq_true, if_false, beq_self_eq_true, Bool.or_self, if_true, hguard,
    hchunks, peekStream, hnoexists, Bool.and_false]
  simp

/-- As `attempt_200_peek_cons`, but with an empty, cleanly exhausted body:
the peek defaults to `b""` (falsy, so nothing is pre-written). -/
theorem attempt_200_peek_nil (cfg : Config) (env : Env) (url e : String)
    (r : Response) (i : Nat)
    (htr : env.transport i url 0 = .response r) (hcode : r.code = 200)
    (hval : env.validate = none) (hmin : cfg.minsize = none)
    (hmax : cfg.maxsize = none) (hmeta : cfg.metadata = false)
    (hguard : (cfg.adjustExtension && extInSig (some e)) = true)
    (hchunks : r.chunks = []) (hserr : r.streamError = none)
    (hnoexists : ∀ o, env.existsAt o = false) :
    attempt cfg env url ⟨some e, []⟩ i =
      openReceive cfg (adjust_extension ⟨some e, []⟩ []).1 0 0 [] []
        none r.declaredSize [] := by
  unfold attempt
  simp only [List.length_nil, htr, hcode, hval, hmin, hmax, hmeta,
    checkSizeBudget_none_none, Option.isNone_some, Bool.false_and, Bool.and_true,
    Bool.false_eq_true, if_false, beq_self_eq_true, Bool.or_self, if_true, hguard,
    hchunks, hserr, peekStream, hnoexists, Bool.and_false]
  simp

/-- Reduction of one attempt on a nonempty partial destination with a
declared extension, a `206 Partial Content` response, no validation hook,
no size bounds and no metadata: the attempt is exactly the resuming
open-and-copy step on the response body (the peek never fires on a
resumed attempt, since the offset is nonzero). -/
theorem attempt_206_resume (cfg : Config) (env : Env) (url e : String)
    (P : Bytes) (r : Response) (i : Nat)
    (htr : env.transport i url P.length = .response r) (hcode : r.code = 206)
    (hval : env.validate = none) (hmin : cfg.minsize = none)
    (hmax : cfg.maxsize = none) (hmeta : cfg.metadata = false)
    (hP : P ≠ []) :
    attempt cfg env url ⟨some e, P⟩ i =
      openReceive cfg ⟨some e, P⟩ P.length P.length [] r.chunks
        r.streamError r.declaredSize [] := by
  have hz : (P.length == 0) = false := by
    simp [List.length_eq_zero, hP]
  unfold attempt
  simp only [htr, hcode, hval, hmin, hmax, hmeta, checkSizeBudget_none_none,
    Option.isNone_some, Bool.false_and, Bool.and_true, Bool.false_eq_true,
    if_false, if_true, hz, Bool.and_false]
  simp [hz]

/-- A first loop iteration whose attempt succeeds returns `True` with that
attempt's destination and events after exactly one request. -/
theorem downloadLoop_first_success (cfg : Config) (env : Env) (url : String)
    (pf pf2 : PathFmt) (ev : List Event) (fuel : Nat)
    (h : attempt cfg env url pf 0 = .successStep pf2 ev) :
    downloadLoop cfg env (fuel + 1) (initState url pf) = some ⟨true, pf2, ev, 1⟩ := by
  apply downloadLoop_stop
  unfold loopIter initState
  rw [h]
  rfl

/-- A first loop iteration whose attempt fails fatally returns `False`
with that attempt's events after exactly one request. -/
theorem downloadLoop_first_fatal (cfg : Config) (env : Env) (url : String)
    (pf pf2 : PathFmt) (ev : List Event) (fuel : Nat)
    (h : attempt cfg env url pf 0 = .fatalStep pf2 ev) :
    downloadLoop cfg env (fuel + 1) (initState url pf) = some ⟨false, pf2, ev, 1⟩ := by
  apply downloadLoop_stop
  unfold loopIter initState
  rw [h]
  rfl

/-- A fresh attempt (no partial file) against the range transport succeeds
in one pass and leaves exactly `D` on disk, whether or not extension
adjustment peeks at the first chunk. -/
theorem attempt_range_fresh (D : Bytes) (chunk : Bytes → List Bytes)
    (hchunk : ∀ xs, (chunk xs).flatten = xs) (e : String) (adj : Bool) (i : Nat) :
    ∃ (pf2 : PathFmt) (ev : List Event),
      attempt (cfgResume adj) (rangeEnv D chunk) url0 ⟨some e, []⟩ i =
        .successStep pf2 ev ∧ pf2.partContent = D := by
  have htr : (rangeEnv D chunk).transport i url0 0 =
      .response ⟨200, "OK", some D.length, none, chunk D, none⟩ := rfl
  cases hguard : ((cfgResume adj).adjustExtension && extInSig (some e)) with
  | false =>
    refine ⟨⟨some e, [] ++ (chunk D).flatten⟩, [] ++ [Event.outStart], ?_,
      by simp [hchunk]⟩
    rw [attempt_200_noPeek _ _ _ _ _ _ htr rfl rfl rfl rfl rfl hguard]
    exact openReceive_zero (cfgResume adj) ⟨some e, []⟩ [] (chunk D) D.length
      (by simp [hchunk]) []
  | true =>
    rcases hc : chunk D with _ | ⟨c, rest⟩
    · have hD : D = [] := by rw [← hchunk D, hc]; rfl
      refine ⟨⟨(adjust_extension ⟨some e, []⟩ []).1.extension,
        [] ++ ([] : List Bytes).flatten⟩, [] ++ [Event.outStart], ?_, by simp [hD]⟩
      rw [attempt_200_peek_nil _ _ _ _ _ _ htr rfl rfl rfl rfl rfl hguard hc rfl
        (fun o => rfl)]
      exact openReceive_zero (cfgResume adj) (adjust_extension ⟨some e, []⟩ []).1
        [] [] D.length (by simp [hD]) []
    · have hD : c ++ rest.flatten = D := by rw [← hchunk D, hc]; simp
      refine ⟨⟨(adjust_extension ⟨some e, []⟩ c).1.extension, c ++ rest.flatten⟩,
        [] ++ [Event.outStart], ?_, hD⟩
      rw [attempt_200_peek_cons _ _ _ _ _ _ c rest htr rfl rfl rfl rfl rfl hguard hc
        (fun o => rfl)]
      exact openReceive_zero (cfgResume adj) (adjust_extension ⟨some e, []⟩ c).1
        c rest D.length (by rw [← hD]; simp) []

/-- A resuming attempt holding the first `n ≥ 1` bytes of `D` against the
range transport succeeds in one pass and leaves exactly `D` on disk: the
`206` suffix is appended after the existing prefix, never duplicating it. -/
theorem attempt_range_resume (D : Bytes) (chunk : Bytes → List Bytes)
    (hchunk : ∀ xs, (chunk xs).flatten = xs) (e : String) (adj : Bool)
    (n : Nat) (h1 : n ≠ 0) (hn : n ≤ D.length) (i : Nat) :
    ∃ (pf2 : PathFmt) (ev : List Event),
      attempt (cfgResume adj) (rangeEnv D chunk) url0 ⟨some e, D.take n⟩ i =
        .successStep pf2 ev ∧ pf2.partContent = D := by
  have hlen : (D.take n).length = n := by
    rw [List.length_take, Nat.min_eq_left hn]
  have hP : D.take n ≠ [] := by
    intro hnil
    apply h1
    rw [← hlen, hnil]
    rfl
  have htr : (rangeEnv D chunk).transport i url0 (D.take n).length =
      .response ⟨206, "Partial Content", some D.length, none,
        chunk (D.drop (D.take n).length), none⟩ :=
    if_neg (fun h0 => hP (List.length_eq_zero.mp h0))
  obtain ⟨pf2, hopen, hpc⟩ := openReceive_resume (cfgResume adj) ⟨some e, D.take n⟩
    (chunk (D.drop (D.take n).length)) D.length
    (by simpa [hlen] using h1)
    (by rw [hchunk]; simp [hlen, List.length_drop]; omega) []
  refine ⟨pf2, [] ++ [Event.logDebug ("Resuming download at byte " ++
      toString (D.take n).length)] ++ [Event.outStart], ?_, ?_⟩
  · rw [attempt_206_resume (cfgResume adj) (rangeEnv D chunk) url0 e (D.take n) _ i
      htr rfl rfl rfl rfl rfl hP]
    exact hopen
  · rw [hpc, hchunk, hlen]
    exact List.take_append_drop n D

/-- A single-attempt `download` run against the range transport, starting
from the first `n` bytes of `D` already on disk (`n = 0` is the fresh
run): it returns `True` after one request with exactly `D` on disk. -/
theorem range_run (D : Bytes) (chunk : Bytes → List Bytes)
    (hchunk : ∀ xs, (chunk xs).flatten = xs) (e : String) (adj : Bool)
    (n : Nat) (hn : n ≤ D.length) :
    ∃ o : Outcome,
      downloadLoop (cfgResume adj) (rangeEnv D chunk) 1
          (initState url0 ⟨some e, D.take n⟩) = some o ∧
      o.success = true ∧ o.pf.partContent = D ∧ o.requests = 1 := by
  cases n with
  | zero =>
    obtain ⟨pf2, ev, hatt, hpc⟩ := attempt_range_fresh D chunk hchunk e adj 0
    refine ⟨⟨true, pf2, ev, 1⟩, ?_, rfl, hpc, rfl⟩
    rw [List.take_zero]
    exact downloadLoop_first_success _ _ _ _ _ _ 0 hatt
  | succ m =>
    obtain ⟨pf2, ev, hatt, hpc⟩ :=
      attempt_range_resume D chunk hchunk e adj (m + 1) (Nat.succ_ne_zero m) hn 0
    exact ⟨⟨true, pf2, ev, 1⟩, downloadLoop_first_success _ _ _ _ _ _ 0 hatt,
      rfl, hpc, rfl⟩

/-- C1: against a range-honoring transport serving resource `D` (with any
`iter_content` chunking of the bodies), running `download` on a
destination already holding the first `n` bytes of `D` and running it on
an empty destination both return `True` and leave byte-identical final
content equal to the full resource: the resume appends only the missing
suffix, never duplicating the prefix. -/
theorem resume_matches_fresh (D : Bytes) (chunk : Bytes → List Bytes)
    (hchunk : ∀ xs, (chunk xs).flatten = xs) (e : String) (adj : Bool)
    (n : Nat) (hn : n ≤ D.length) :
    ∃ o o' : Outcome,
      downloadLoop (cfgResume adj) (rangeEnv D chunk) 1
          (initState url0 ⟨some e, D.take n⟩) = some o ∧
      downloadLoop (cfgResume adj) (rangeEnv D chunk) 1
          (initState url0 ⟨some e, []⟩) = some o' ∧
      o.success = true ∧ o'.success = true ∧
      o.pf.partContent = o'.pf.partContent ∧ o'.pf.partContent = D := by
  obtain ⟨o, ho, hs, hc, _⟩ := range_run D chunk hchunk e adj n hn
  obtain ⟨o', ho', hs', hc', _⟩ := range_run D chunk hchunk e adj 0 (Nat.zero_le _)
  rw [List.take_zero] at ho'
  exact ⟨o, o', ho, ho', hs, hs', by rw [hc, hc'], hc'⟩

/-- Witness for `resume_matches_fresh`: the spec's end-to-end scenario —
text content `"foobar"` (bytes) with the first 3 bytes already present;
the final content is `"foobar"`, not `"foofoobar"`. -/
theorem resume_matches_fresh_witness :
    3 ≤ ([102, 111, 111, 98, 97, 114] : Bytes).length ∧
    ∃ o o' : Outcome,
      downloadLoop (cfgResume true) (rangeEnv [102, 111, 111, 98, 97, 114] (fun xs => [xs])) 1
          (initState url0 ⟨some "txt", ([102, 111, 111, 98, 97, 114] : Bytes).take 3⟩) = some o ∧
      downloadLoop (cfgResume true) (rangeEnv [102, 111, 111, 98, 97, 114] (fun xs => [xs])) 1
          (initState url0 ⟨some "txt", []⟩) = some o' ∧
      o.success = true ∧ o'.success = true ∧
      o.pf.partContent = o'.pf.partContent ∧
      o'.pf.partContent = [102, 111, 111, 98, 97, 114] :=
  ⟨by decide,
   resume_matches_fresh [102, 111, 111, 98, 97, 114] (fun xs => [xs])
     (fun xs => by simp) "txt" true 3 (by decide)⟩

/-- A violated bound makes `checkSizeBudget` return a warning. -/
theorem checkSizeBudget_some_of_viol (mn mx : Option Nat) (s : Nat)
    (h : (sizeBelowMin mn s || sizeAboveMax mx s) = true) :
    ∃ w, checkSizeBudget mn mx (some s) = some w := by
  cases hb : sizeBelowMin mn s <;> cases ha : sizeAboveMax mx s <;>
    simp_all [checkSizeBudget]

/-- A failed size-budget check on a 200 response is fatal for the attempt:
the warning is logged and the step returns `False` — nothing later in the
attempt runs. -/
theorem attempt_size_fatal (cfg : Config) (env : Env) (url : String) (pf : PathFmt)
    (r : Response) (i : Nat) (w : String)
    (htr : env.transport i url pf.partContent.length = .response r)
    (hcode : r.code = 200) (hval : env.validate = none)
    (hchk : checkSizeBudget cfg.minsize cfg.maxsize r.declaredSize = some w) :
    attempt cfg env url pf i = .fatalStep pf [.logWarn w] := by
  unfold attempt
  simp only [htr, hcode, hval, hchk]
  simp

/-- A 200 response declaring size `s` (from `Content-Length`), empty body. -/
def respSized (s : Option Nat) : Response := ⟨200, "OK", s, none, [], none⟩

/-- Environment whose transport always returns `respSized s`. -/
def envSized (s : Option Nat) : Env :=
  ⟨fun _ _ _ => .response (respSized s), none, fun _ => false, false, fun _ => none⟩

/-- Configuration with the given size bounds and nothing else. -/
def cfgSize (mn mx : Option Nat) : Config := ⟨some 4, mn, mx, false, false⟩

/-- C3: when the parsed declared size violates a configured bound, the
download returns `False` immediately — one request, a single warning, no
retry; a size exactly equal to the configured minimum or maximum passes
its bound, a size equal to both bounds passes the whole check, and an
unknown (absent or unparsable) declared size always passes the budget
check. -/
theorem size_budget_enforcement :
    (∀ (mn mx : Option Nat) (s : Nat) (e : String),
      (sizeBelowMin mn s || sizeAboveMax mx s) = true →
      ∃ w, downloadLoop (cfgSize mn mx) (envSized (some s)) 1
          (initState url0 ⟨some e, []⟩) =
        some ⟨false, ⟨some e, []⟩, [Event.logWarn w], 1⟩) ∧
    (∀ m : Nat, sizeBelowMin (some m) m = false) ∧
    (∀ M : Nat, sizeAboveMax (some M) M = false) ∧
    (∀ b : Nat, checkSizeBudget (some b) (some b) (some b) = none) ∧
    (∀ mn mx : Option Nat, checkSizeBudget mn mx none = none) := by
  refine ⟨?_, ?_, ?_, ?_, ?_⟩
  · intro mn mx s e hviol
    obtain ⟨w, hw⟩ := checkSizeBudget_some_of_viol mn mx s hviol
    refine ⟨w, downloadLoop_first_fatal _ _ _ _ _ _ 0 ?_⟩
    exact attempt_size_fatal (cfgSize mn mx) (envSized (some s)) url0 ⟨some e, []⟩
      (respSized (some s)) 0 w rfl rfl rfl hw
  · intro m
    simp [sizeBelowMin]
  · intro M
    simp [sizeAboveMax]
  · intro b
    simp [checkSizeBudget, sizeBelowMin, sizeAboveMax]
  · intro mn mx
    rfl

/-- Witness for `size_budget_enforcement`: declared size 5 below a
configured minimum of 10 aborts the download with one warning after one
request. -/
theorem size_budget_enforcement_witness :
    (sizeBelowMin (some 10) 5 || sizeAboveMax none 5) = true ∧
    ∃ w, downloadLoop (cfgSize (some 10) none) (envSized (some 5)) 1
        (initState url0 ⟨some "txt", []⟩) =
      some ⟨false, ⟨some "txt", []⟩, [Event.logWarn w], 1⟩ :=
  ⟨by decide,
   size_budget_enforcement.1 (some 10) none 5 "txt" (by decide)⟩

/-- The 416 Requested Range Not Satisfiable response, empty body. -/
def resp416 : Response := ⟨416, "Requested Range Not Satisfiable", none, none, [], none⟩

/-- Environment whose transport always answers 416. -/
def env416 : Env :=
  ⟨fun _ _ _ => .response resp416, none, fun _ => false, false, fun _ => none⟩

/-- A 416 on a nonempty partial file ends the attempt successfully without
touching the destination or starting a copy. -/
theorem attempt_416_resume (pf : PathFmt) (i : Nat) (hne : pf.partContent ≠ []) :
    attempt (cfgRetry (some 3)) env416 url0 pf i = .successStep pf [] := by
  have hz : (pf.partContent.length != 0) = true := by
    simp [List.length_eq_zero, hne]
  unfold attempt
  simp [env416, resp416, hz]

/-- C7: a 416 response while the resume offset (current partial size) is
positive makes `download` return `True` at once — one request, no events,
no body copy, destination untouched; a 416 with offset zero is instead a
fatal non-retryable status: one request, the status warning, `False`. -/
theorem range_not_satisfiable_handling :
    (∀ pf : PathFmt, pf.partContent ≠ [] →
      downloadLoop (cfgRetry (some 3)) env416 1 (initState url0 pf) =
        some ⟨true, pf, [], 1⟩) ∧
    (∀ e : Option String,
      downloadLoop (cfgRetry (some 3)) env416 1 (initState url0 ⟨e, []⟩) =
        some ⟨false, ⟨e, []⟩,
          [Event.logWarn (statusMsg 416 "Requested Range Not Satisfiable" url0)],
          1⟩) := by
  constructor
  · intro pf hne
    exact downloadLoop_first_success _ _ _ _ _ _ 0 (attempt_416_resume pf 0 hne)
  · intro e
    exact downloadLoop_first_fatal _ _ _ _ _ _ 0 rfl

/-- Witness for `range_not_satisfiable_handling`: a one-byte partial file
plus a 416 answer is treated as already complete. -/
theorem range_not_satisfiable_handling_witness :
    ((⟨some "jpg", [255]⟩ : PathFmt).partContent ≠ []) ∧
    downloadLoop (cfgRetry (some 3)) env416 1 (initState url0 ⟨some "jpg", [255]⟩) =
      some ⟨true, ⟨some "jpg", [255]⟩, [], 1⟩ :=
  ⟨by simp, range_not_satisfiable_handling.1 ⟨some "jpg", [255]⟩ (by simp)⟩

/-- A 200 response with no `Content-Type` header, one 1-byte chunk. -/
def respNoCT : Response := ⟨200, "OK", none, none, [[42]], none⟩

/-- Environment whose transport always returns `respNoCT`. -/
def envNoCT : Env :=
  ⟨fun _ _ _ => .response respNoCT, none, fun _ => false, false, fun _ => none⟩

/-- Configuration for the missing-Content-Type scenario (extension
adjustment on, as by default). -/
def cfgNoCT : Config := ⟨some 4, none, none, true, false⟩

/-- C10: with no `Content-Type` header the MIME type defaults to
`image/jpeg`, so a destination with no extension yet gets extension
`"jpg"` — not the generic `"bin"` tag — and no unknown-MIME warning is
logged (for any behavior of the `mimetypes` fallback, which is never
consulted); the download completes normally. -/
theorem absent_content_type_defaults_jpg :
    (∀ guess : String → Option String, find_extension guess none = ("jpg", none)) ∧
    downloadLoop cfgNoCT envNoCT 1 (initState url0 ⟨none, []⟩) =
      some ⟨true, ⟨some "jpg", [42]⟩, [Event.outStart], 1⟩ := by
  constructor
  · intro guess
    rfl
  · rfl

/-- A plain 200 response with no declared size and a 1-byte body. -/
def resp200simple : Response := ⟨200, "OK", none, none, [[9]], none⟩

/-- Environment for the redirect scenario: the first request hits a 503,
every later one gets `resp200simple`; the validation hook asks for a
replacement URL exactly on the second request and accepts afterwards. -/
def envRedirect : Env :=
  ⟨fun i _ _ => if i = 0 then .response resp503 else .response resp200simple,
   some (fun i => if i = 1 then .redirect "http://127.0.0.1:8088/other" else .accept),
   fun _ => false, false, fun _ => none⟩

/-- Configuration for the redirect scenario: two retries, nothing else. -/
def cfgRedirect : Config := ⟨some 2, none, none, false, false⟩

/-- C6 counterexample: attempt 1 fails with 503 (counter 1); attempt 2's
validation hook returns a replacement URL, so the attempt is discarded
without touching the counter — but before the restarted attempt the
loop-top warning for the pending 503 failure is emitted AGAIN and a
1-second backoff sleep runs AGAIN (the second `retryWarn`/`sleep` pair
below sits between request 1, the redirect, and request 2, the restart).
This refutes the claim that no warning is emitted and no backoff sleep
occurs before an attempt restarted by a URL-returning validation hook. -/
theorem validate_redirect_counterexample :
    downloadLoop cfgRedirect envRedirect 4 (initState url0 ⟨some "txt", []⟩) =
      some ⟨true, ⟨some "txt", [9]⟩,
        [Event.retryWarn msg503 1 (some 3), Event.sleep 1,
         Event.retryWarn msg503 1 (some 3), Event.sleep 1, Event.outStart], 3⟩ := rfl

/-- An accepted validation-hook replacement URL ends the attempt as a
`redirectStep` carrying the new URL, touching nothing else. -/
theorem attempt_redirect (cfg : Config) (env : Env) (url : String) (pf : PathFmt)
    (r : Response) (v : Nat → VRes) (u : String) (i : Nat)
    (htr : env.transport i url pf.partContent.length = .response r)
    (hcode : r.code = 200) (hval : env.validate = some v)
    (hred : v i = .redirect u) :
    attempt cfg env url pf i = .redirectStep u pf [] := by
  unfold attempt
  simp only [htr, hcode, hval, hred]
  simp

/-- The warning/sleep pair the loop top emits when the counter is `t`
with pending failure message `msg` (empty on a first iteration). -/
def loopHeaderEvents (cfg : Config) (tries : Nat) (msg : String) : List Event :=
  (if tries == 0 then []
   else [Event.retryWarn msg tries (cfg.retries.map (· + 1))]) ++
  (if tries == 0 then [] else [Event.sleep tries])

/-- C6 amended: whenever the validation hook returns a string, `download`
replaces the request URL with it and restarts the loop, and the discarded
attempt is never counted against the retry budget (the counter after the
restart equals the counter before the discarded attempt).  No warning or
sleep is attributable to the discarded attempt itself; in particular on a
first attempt (counter 0) the restart is immediate with no events.  But
when an earlier attempt had failed (counter > 0), the loop-top warning
and backoff sleep for that pending failure run again before the restarted
attempt (`loopHeaderEvents`), contrary to the claim's "no warning … no
backoff sleep". -/
theorem validate_redirect_free_retry (cfg : Config) (env : Env) (st : LoopState)
    (r : Response) (v : Nat → VRes) (u : String) (fuel : Nat)
    (htr : env.transport st.reqIdx st.url st.pf.partContent.length = .response r)
    (hcode : r.code = 200) (hval : env.validate = some v)
    (hred : v st.reqIdx = .redirect u)
    (hbud : (st.tries != 0 && budgetExceeded cfg.retries st.tries) = false) :
    downloadLoop cfg env (fuel + 1) st =
      downloadLoop cfg env fuel ⟨st.tries, st.msg, u, st.pf, st.reqIdx + 1,
        st.events ++ loopHeaderEvents cfg st.tries st.msg⟩ := by
  apply downloadLoop_next
  unfold loopIter
  rw [attempt_redirect cfg env st.url st.pf r v u st.reqIdx htr hcode hval hred]
  simp [hbud, loopHeaderEvents]

/-- Witness for `validate_redirect_free_retry` on a first attempt
(counter 0): the restart is immediate, with the new URL, no events, and
the counter still 0. -/
theorem validate_redirect_free_retry_witness :
    downloadLoop cfgRedirect
        ⟨fun _ _ _ => .response resp200simple,
         some (fun _ => .redirect "http://127.0.0.1:8088/other"),
         fun _ => false, false, fun _ => none⟩ 1
        (initState url0 ⟨some "txt", []⟩) =
      downloadLoop cfgRedirect
        ⟨fun _ _ _ => .response resp200simple,
         some (fun _ => .redirect "http://127.0.0.1:8088/other"),
         fun _ => false, false, fun _ => none⟩ 0
        ⟨0, "", "http://127.0.0.1:8088/other", ⟨some "txt", []⟩, 1,
         [] ++ loopHeaderEvents cfgRedirect 0 ""⟩ :=
  validate_redirect_free_retry cfgRedirect _ (initState url0 ⟨some "txt", []⟩)
    resp200simple (fun _ => .redirect "http://127.0.0.1:8088/other")
    "http://127.0.0.1:8088/other" 0 rfl rfl rfl rfl (by decide)

/-- One `self.out.progress(bytes_total, bytes_downloaded, rate)` call. -/
structure ProgressEvent where
  total : Option Nat
  downloaded : Nat
  rate : Int
  deriving Repr, DecidableEq

/-- `HttpDownloader._receive_rate` (lines 276-306), observed through its
progress reports.  Each chunk comes with the wall-clock reading
(`time.time()`) taken right after its write, as a rational; `t1` is the
reference time of the previous chunk.  When a rate limit is set and the
chunk arrived faster than the target rate allows, the loop sleeps the
difference, which advances the reference time exactly as the post-sleep
`time.time()` re-read does.  `bytes_downloaded` only advances when a
progress interval is configured, as in the source.  Python float
arithmetic is modelled exactly over `ℚ`; `int(x)` is `⌊x⌋` for the
nonnegative values that occur here. -/
def receive_rate_aux (rate progress : Option ℚ) (bytes_total : Option Nat)
    (bytes_start : Nat) (tstart : ℚ) :
    Nat → ℚ → List (Bytes × ℚ) → List ProgressEvent
  | _, _, [] => []
  | bytes_downloaded, t1, (data, t2) :: rest =>
    let elapsed := t2 - t1
    let num_bytes := data.length
    let step :=
      match progress with
      | some p =>
        let bd := bytes_downloaded + num_bytes
        let tdiff := t2 - tstart
        (if tdiff ≥ p then
          [ProgressEvent.mk bytes_total bd
            (⌊(((bd : ℚ) - (bytes_start : ℚ)) / tdiff)⌋)]
         else [], bd)
      | none => ([], bytes_downloaded)
    let t2 :=
      match rate with
      | some rv =>
        let expected := (num_bytes : ℚ) / rv
        if elapsed < expected then t2 + (expected - elapsed) else t2
      | none => t2
    step.1 ++ receive_rate_aux rate progress bytes_total bytes_start tstart
      step.2 t2 rest

/-- `_receive_rate` entered with `bytes_downloaded` already-written bytes
at time `tstart` (`t1 = tstart = time.time()`,
`bytes_start = bytes_downloaded`). -/
def receive_rate (rate progress : Option ℚ) (bytes_total : Option Nat)
    (bytes_downloaded : Nat) (tstart : ℚ) (chunks : List (Bytes × ℚ)) :
    List ProgressEvent :=
  receive_rate_aux rate progress bytes_total bytes_downloaded tstart
    bytes_downloaded tstart chunks

/-- The progress policy the code actually implements, stated directly:
after a chunk arriving at time `t2`, a report is emitted iff the interval
has elapsed since the ATTEMPT START (`t2 - tstart ≥ p`) — not since the
previous report — carrying the cumulative byte count and the average rate
since the attempt start. -/
def progressSpec (p : ℚ) (bytes_total : Option Nat) (bytes_start : Nat)
    (tstart : ℚ) : Nat → List (Bytes × ℚ) → List ProgressEvent
  | _, [] => []
  | bd0, (data, t2) :: rest =>
    let bd := bd0 + data.length
    (if t2 - tstart ≥ p then
      [ProgressEvent.mk bytes_total bd
        (⌊(((bd : ℚ) - (bytes_start : ℚ)) / (t2 - tstart))⌋)]
     else []) ++ progressSpec p bytes_total bytes_start tstart bd rest

/-- `receive_rate` with no rate limit reports according to
`progressSpec`, for every starting state. -/
theorem receive_rate_aux_spec (p : ℚ) (total : Option Nat) (b0 : Nat) (tstart : ℚ)
    (chunks : List (Bytes × ℚ)) :
    ∀ (bd : Nat) (t1 : ℚ),
      receive_rate_aux none (some p) total b0 tstart bd t1 chunks =
        progressSpec p total b0 tstart bd chunks := by
  induction chunks with
  | nil => intro bd t1; rfl
  | cons c rest ih =>
    intro bd t1
    obtain ⟨data, t2⟩ := c
    simp only [receive_rate_aux, progressSpec]
    rw [ih]

/-- A 200 response declaring 5 bytes but delivering only 2. -/
def respShort : Response := ⟨200, "OK", some 5, none, [[1, 2]], none⟩

/-- Environment whose transport always returns `respShort`. -/
def envShort : Env :=
  ⟨fun _ _ _ => .response respShort, none, fun _ => false, false, fun _ => none⟩

/-- Minimal configuration for the size-mismatch scenario. -/
def cfgPlain : Config := ⟨some 4, none, none, false, false⟩

/-- C9 amended: with a progress interval configured (and no rate limit),
the copy loop emits a `(total, downloaded, rate)` event after a chunk
exactly when the interval has elapsed since the ATTEMPT START — once the
first interval has passed, every subsequent chunk reports, regardless of
when the previous report happened — with the rate computed as bytes
downloaded since the attempt started over time since the attempt started;
and if a declared size was known and the file's size after the copy is
smaller, the attempt ends in a retryable size-mismatch condition. -/
theorem progress_reporting_amended :
    (∀ (p : ℚ) (total : Option Nat) (b0 : Nat) (tstart : ℚ)
        (chunks : List (Bytes × ℚ)),
      receive_rate none (some p) total b0 tstart chunks =
        progressSpec p total b0 tstart b0 chunks) ∧
    attempt cfgPlain envShort url0 ⟨some "txt", []⟩ 0 =
      .retry (sizeMismatchMsg 2 5) ⟨some "txt", [1, 2]⟩ [Event.outStart] :=
  ⟨fun p total b0 tstart chunks =>
    receive_rate_aux_spec p total b0 tstart chunks b0 tstart, rfl⟩

/-- C9 counterexample: interval 3 seconds, attempt start at time 0;
chunks of 10 and 5 bytes arriving at times 3 and 4.  Both chunks emit a
report — the second only 1 second after the first — so reports are NOT
emitted "exactly when the configured interval has elapsed since the
previous report" (that policy would suppress the second report, as only
1 < 3 seconds passed since the first). -/
theorem progress_reporting_counterexample :
    receive_rate none (some 3) (some 100) 0 0
        [([0, 0, 0, 0, 0, 0, 0, 0, 0, 0], 3), ([0, 0, 0, 0, 0], 4)] =
      [⟨some 100, 10, 3⟩, ⟨some 100, 15, 3⟩] := by
  norm_num [receive_rate, receive_rate_aux]
